import Mathlib

/-!
Shallow embedding of the ledger-chain replay engine
(`src/catchup/ApplyLedgerChainWork.cpp` of this repository).

Ledger sequence numbers are `uint32` in the source; none of the verified
properties involves arithmetic near the wrap-around boundary, so sequence
numbers and hashes are modelled as `Nat`.  I/O streams are modelled as the
list of records remaining in the stream (`none` = stream closed), and the
external collaborators (history manager, ledger manager / Ledger Application
Sink, file system) are modelled as explicit parameters in an environment
record, with stateful calls passed explicitly.  Exceptions are modelled by
`Except`, whose error component carries the member state at the throw point
(C++ member mutations made before a throw persist).
-/

/-- Ledger content hash (SHA-256 in the source, abstracted to `Nat`). -/
abbrev Hash := Nat

/-- One archived transaction (opaque for the properties verified here). -/
abbrev Tx := Nat

/-- XDR `TransactionSet`: the previous ledger hash it is chained to plus the
transactions, as stored inside a `TransactionHistoryEntry`. -/
structure TransactionSet where
  previousLedgerHash : Hash
  txs : List Tx
deriving DecidableEq, Repr

/-- XDR `TransactionHistoryEntry`: `{ledgerSeq, txSet}`, archived only for
ledgers with a non-empty transaction set. -/
structure TransactionHistoryEntry where
  ledgerSeq : Nat
  txSet : TransactionSet
deriving DecidableEq, Repr

/-- Value of the default constructor `TransactionHistoryEntry()` (XDR
zero-default), used to reset the look-ahead buffer when files are opened. -/
def TransactionHistoryEntry.init : TransactionHistoryEntry :=
  { ledgerSeq := 0, txSet := { previousLedgerHash := 0, txs := [] } }

/-- The consensus (SCP) value stored in a ledger header; only the transaction
set hash is relevant to replay. -/
structure StellarValue where
  txSetHash : Hash
deriving DecidableEq, Repr

/-- XDR `LedgerHeader` (the fields read by the replay code). -/
structure LedgerHeader where
  ledgerSeq : Nat
  previousLedgerHash : Hash
  bucketListHash : Hash
  scpValue : StellarValue
deriving DecidableEq, Repr

/-- XDR `LedgerHeaderHistoryEntry`: a header together with its hash. -/
structure LedgerHeaderHistoryEntry where
  hash : Hash
  header : LedgerHeader
deriving DecidableEq, Repr

/-- `LedgerRange`: inclusive `{mFirst, mLast}`. -/
structure LedgerRange where
  mFirst : Nat
  mLast : Nat
deriving DecidableEq, Repr

/-- `TxSetFrame` as the replay code builds it: either from an archived XDR
`TransactionSet` or empty from a previous-ledger hash. -/
structure TxSetFrame where
  mPreviousLedgerHash : Hash
  mTransactions : List Tx
deriving DecidableEq, Repr

set_option linter.unusedVariables false in
/-- The `TxSetFrame(networkID, xdrSet)` constructor (the network id wraps the
individual transactions and does not enter the set's contents). -/
def TxSetFrame.fromXdr (networkID : Nat) (xdrSet : TransactionSet) : TxSetFrame :=
  { mPreviousLedgerHash := xdrSet.previousLedgerHash, mTransactions := xdrSet.txs }

/-- The `TxSetFrame(previousLedgerHash)` constructor: an empty set anchored to
the given previous-ledger hash. -/
def TxSetFrame.emptyFromHash (h : Hash) : TxSetFrame :=
  { mPreviousLedgerHash := h, mTransactions := [] }

/-- Exception taxonomy of the replay step (`InvariantDoesNotHold`,
`FileSystemException`, `std::runtime_error` for chain/logic errors). -/
inductive Err where
  | invariantDoesNotHold (msg : String)
  | fileSystemException (msg : String)
  | runtimeError (msg : String)
deriving DecidableEq, Repr

/-- Modelled from the spec: the external collaborators of the replayer.
`hashTxSet` is `TxSetFrame::getContentsHash` (code outside this repository's
`src/`): per the spec it is one hashing function over the set's
previous-ledger anchor and transactions, used identically for empty and
non-empty sets.  `closeLedger` is the Ledger Application Sink's synchronous
state transition (previous LCL, sequence, tx set, consensus value → new LCL,
or a thrown error such as an invariant violation).
`checkpointContainingLedger` and `checkpointFrequency` come from the history
manager; `headerFile`/`txFile` give the per-checkpoint archive streams
(`none` = file missing or unreadable, a filesystem error). -/
structure Env where
  networkID : Nat
  checkpointFrequency : Nat
  checkpointContainingLedger : Nat → Nat
  hashTxSet : Hash → List Tx → Hash
  closeLedger : LedgerHeaderHistoryEntry → Nat → TxSetFrame → StellarValue →
    Except Err LedgerHeaderHistoryEntry
  headerFile : Nat → Option (List LedgerHeaderHistoryEntry)
  txFile : Nat → Option (List TransactionHistoryEntry)

/-- Modelled from the spec: `TxSetFrame::getContentsHash` computes the content
hash of a set from its previous-ledger anchor and its transactions, the same
way for empty and non-empty sets. -/
def TxSetFrame.getContentsHash (env : Env) (t : TxSetFrame) : Hash :=
  env.hashTxSet t.mPreviousLedgerHash t.mTransactions

/-- `BasicWork::State` values returned by `onRun`. -/
inductive WorkResult where
  | WORK_RUNNING
  | WORK_SUCCESS
  | WORK_FAILURE
deriving DecidableEq, Repr

/-- Member state of `ApplyLedgerChainWork`, together with the observed state
of the external Ledger Application Sink (`lcl`, the sink's last-closed-ledger
header, which the code reads live through `mApp.getLedgerManager()`), the two
metrics counters, and a ghost trace `closeLedgerCalls` recording each
invocation of the sink's `closeLedger`. -/
structure WorkState where
  mRange : LedgerRange
  mLastApplied : LedgerHeaderHistoryEntry
  mCurrSeq : Nat
  mFilesOpen : Bool
  mHdrIn : Option (List LedgerHeaderHistoryEntry)
  mTxIn : Option (List TransactionHistoryEntry)
  mTxHistoryEntry : TransactionHistoryEntry
  lcl : LedgerHeaderHistoryEntry
  mApplyLedgerSuccess : Nat
  mApplyLedgerFailure : Nat
  closeLedgerCalls : List Nat
deriving DecidableEq, Repr

/-- The do-while loop of `getCurrentTxSet` (lines 96-114), over an open
transaction stream holding the given remaining records: compare the buffered
record to the target sequence before reading; `<` discards it and reads the
next record, `>` breaks out (gap → empty set) without consuming the buffer,
`=` returns the record's transactions without consuming the buffer.  Falling
out of the loop (stream exhausted while behind the target) yields the empty
set anchored to the LCL hash. -/
def getCurrentTxSetLoop (networkID : Nat) (lclHash : Hash) (seq : Nat) :
    TransactionHistoryEntry → List TransactionHistoryEntry →
      TxSetFrame × TransactionHistoryEntry × List TransactionHistoryEntry
  | entry, l =>
    if entry.ledgerSeq < seq then
      match l with
      | [] => (TxSetFrame.emptyFromHash lclHash, entry, [])
      | e :: rest => getCurrentTxSetLoop networkID lclHash seq e rest
    else if entry.ledgerSeq > seq then
      (TxSetFrame.emptyFromHash lclHash, entry, l)
    else
      (TxSetFrame.fromXdr networkID entry.txSet, entry, l)

/-- `ApplyLedgerChainWork::getCurrentTxSet` (lines 86-118): target sequence is
the sink's LCL sequence plus one; empty sets are anchored to the sink's LCL
hash.  With the stream closed (`mTxIn = none`, falsy in the loop condition)
the loop body runs exactly once on the buffered record and cannot read. -/
def getCurrentTxSet (env : Env) (st : WorkState) : TxSetFrame × WorkState :=
  let seq := st.lcl.header.ledgerSeq + 1
  match st.mTxIn with
  | some l =>
    let r := getCurrentTxSetLoop env.networkID st.lcl.hash seq st.mTxHistoryEntry l
    (r.1, { st with mTxHistoryEntry := r.2.1, mTxIn := some r.2.2 })
  | none =>
    if st.mTxHistoryEntry.ledgerSeq = seq then
      (TxSetFrame.fromXdr env.networkID st.mTxHistoryEntry.txSet, st)
    else
      (TxSetFrame.emptyFromHash st.lcl.hash, st)

/-- State after `mHdrIn.readOne(hHeader)` popped one record. -/
def stAfterRead (st : WorkState) (rest : List LedgerHeaderHistoryEntry) : WorkState :=
  { st with mHdrIn := some rest }

/-- Effect of `mApplyLedgerFailure.Mark()` on the state. -/
def markFailure (st : WorkState) : WorkState :=
  { st with mApplyLedgerFailure := st.mApplyLedgerFailure + 1 }

/-- Apply path of `applyHistoryOfSingleLedger` (lines 197-247), entered once
the header passed all continuity checks: resolve the tx set, verify
`header.scpValue.txSetHash` against its contents hash, invoke the sink's
`closeLedger`, verify the resulting LCL hash against the header hash, and on
success mark the success meter and set `mLastApplied`. -/
def applyValidNext (env : Env) (st : WorkState) (hHeader : LedgerHeaderHistoryEntry) :
    Except (Err × WorkState) (Bool × WorkState) :=
  let r := getCurrentTxSet env st
  let txset := r.1
  let st1 := r.2
  if hHeader.header.scpValue.txSetHash ≠ TxSetFrame.getContentsHash env txset then
    Except.error (Err.runtimeError "replay txset hash differs from txset hash in replay ledger",
      markFailure st1)
  else
    match env.closeLedger st1.lcl hHeader.header.ledgerSeq txset hHeader.header.scpValue with
    | Except.error e =>
        Except.error (e,
          { st1 with closeLedgerCalls := st1.closeLedgerCalls ++ [hHeader.header.ledgerSeq] })
    | Except.ok newLcl =>
        let st2 :=
          { st1 with
            lcl := newLcl,
            closeLedgerCalls := st1.closeLedgerCalls ++ [hHeader.header.ledgerSeq] }
        if st2.lcl.hash ≠ hHeader.hash then
          Except.error (Err.runtimeError "replay produced mismatched ledger hash",
            markFailure st2)
        else
          Except.ok (true,
            { st2 with
              mApplyLedgerSuccess := st2.mApplyLedgerSuccess + 1,
              mLastApplied := hHeader })

/-- `ApplyLedgerChainWork::applyHistoryOfSingleLedger` (lines 120-248).
Returns `false` when no header record can be read, otherwise classifies the
header against the sink's LCL in source order (too old / one-before-LCL /
at-LCL / overshoot / chain break / valid next) and applies it if valid. -/
def applyHistoryOfSingleLedger (env : Env) (st : WorkState) :
    Except (Err × WorkState) (Bool × WorkState) :=
  match st.mHdrIn with
  | none => Except.ok (false, st)
  | some [] => Except.ok (false, st)
  | some (hHeader :: rest) =>
    let st := stAfterRead st rest
    if hHeader.header.ledgerSeq + 1 < st.lcl.header.ledgerSeq then
      Except.ok (true, st)
    else if hHeader.header.ledgerSeq + 1 = st.lcl.header.ledgerSeq then
      if hHeader.hash ≠ st.lcl.header.previousLedgerHash then
        Except.error (Err.runtimeError "replay failed to connect on hash of LCL predecessor", st)
      else
        Except.ok (true, st)
    else if hHeader.header.ledgerSeq = st.lcl.header.ledgerSeq then
      if hHeader.hash ≠ st.lcl.hash then
        Except.error (Err.runtimeError "replay at LCL disagreed on hash", markFailure st)
      else
        Except.ok (true, st)
    else if hHeader.header.ledgerSeq ≠ st.lcl.header.ledgerSeq + 1 then
      Except.error (Err.runtimeError "replay overshot current ledger", markFailure st)
    else if hHeader.header.previousLedgerHash ≠ st.lcl.hash then
      Except.error (Err.runtimeError "replay at current ledger disagreed on LCL hash",
        markFailure st)
    else
      applyValidNext env st hHeader

/-- `ApplyLedgerChainWork::openCurrentInputFiles` (lines 69-84): close both
streams, open the header and transaction files of checkpoint `mCurrSeq`,
reset the transaction look-ahead buffer, and mark files open.  A missing or
unreadable file throws a `FileSystemException`. -/
def openCurrentInputFiles (env : Env) (st : WorkState) :
    Except (Err × WorkState) WorkState :=
  match env.headerFile st.mCurrSeq with
  | none =>
    Except.error (Err.fileSystemException "could not open ledger header file",
      { st with mHdrIn := none, mTxIn := none })
  | some hdrs =>
    match env.txFile st.mCurrSeq with
    | none =>
      Except.error (Err.fileSystemException "could not open transactions file",
        { st with mHdrIn := some hdrs, mTxIn := none })
    | some txs =>
      Except.ok
        { st with
          mHdrIn := some hdrs,
          mTxIn := some txs,
          mTxHistoryEntry := TransactionHistoryEntry.init,
          mFilesOpen := true }

/-- Body of `onRun` after the file-opening step (lines 260-274): apply one
ledger; if the header stream is exhausted, advance the checkpoint cursor by
the checkpoint frequency and mark files for reopening; then report SUCCESS
when the sink's LCL sequence equals `mRange.mLast`, RUNNING otherwise. -/
def stepAfterOpen (env : Env) (st : WorkState) :
    Except (Err × WorkState) (WorkResult × WorkState) :=
  match applyHistoryOfSingleLedger env st with
  | Except.error e => Except.error e
  | Except.ok (applied, st1) =>
    let st2 :=
      if applied then st1
      else
        { st1 with
          mCurrSeq := st1.mCurrSeq + env.checkpointFrequency,
          mFilesOpen := false }
    if st2.lcl.header.ledgerSeq = st2.mRange.mLast then
      Except.ok (WorkResult.WORK_SUCCESS, st2)
    else
      Except.ok (WorkResult.WORK_RUNNING, st2)

/-- The try-block of `ApplyLedgerChainWork::onRun` (lines 253-275). -/
def onRunBody (env : Env) (st : WorkState) :
    Except (Err × WorkState) (WorkResult × WorkState) :=
  if st.mFilesOpen then stepAfterOpen env st
  else
    match openCurrentInputFiles env st with
    | Except.error e => Except.error e
    | Except.ok st1 => stepAfterOpen env st1

/-- `ApplyLedgerChainWork::onRun` (lines 250-292) including its catch
clauses: `InvariantDoesNotHold` is rethrown, `FileSystemException` and every
other `std::exception` are converted to `WORK_FAILURE`. -/
def onRun (env : Env) (st : WorkState) :
    Except (Err × WorkState) (WorkResult × WorkState) :=
  match onRunBody env st with
  | Except.ok r => Except.ok r
  | Except.error (Err.invariantDoesNotHold m, st1) =>
      Except.error (Err.invariantDoesNotHold m, st1)
  | Except.error (Err.fileSystemException _, st1) =>
      Except.ok (WorkResult.WORK_FAILURE, st1)
  | Except.error (Err.runtimeError _, st1) =>
      Except.ok (WorkResult.WORK_FAILURE, st1)

/-- The spec's `reset(range, callerLCL)`: construction of the work for a
range followed by `ApplyLedgerChainWork::onReset` (lines 51-67).  Captures
the sink's current LCL as `mLastApplied`, sets the checkpoint cursor to the
checkpoint containing `range.mFirst`, closes both streams and marks files
closed.  The sink state (`lcl`) is external and unchanged. -/
def onReset (env : Env) (range : LedgerRange) (st : WorkState) : WorkState :=
  { st with
    mRange := range,
    mLastApplied := st.lcl,
    mCurrSeq := env.checkpointContainingLedger range.mFirst,
    mHdrIn := none,
    mTxIn := none,
    mFilesOpen := false }

/-- Member state carried by a step outcome (the state at the throw point for
an error, the resulting state otherwise). -/
def resultState : Except (Err × WorkState) (Bool × WorkState) → WorkState
  | Except.ok (_, s) => s
  | Except.error (_, s) => s

/-- Outcomes of the continuity classification, following the table of the
specification (section 4.1.1). -/
inductive ContinuityOutcome where
  | skipTooOld
  | knitPredecessor
  | knitPredecessorMismatch
  | knitAtLCL
  | knitAtLCLMismatch
  | overshoot
  | chainBreak
  | applyLedger
deriving DecidableEq, Repr

/-- Continuity table exactly as the specification states it, conditions
tested in order, each applying only when all earlier ones are false. -/
def specClassify (h lcl : LedgerHeaderHistoryEntry) : ContinuityOutcome :=
  if h.header.ledgerSeq + 1 < lcl.header.ledgerSeq then
    ContinuityOutcome.skipTooOld
  else if h.header.ledgerSeq + 1 = lcl.header.ledgerSeq then
    if h.hash ≠ lcl.header.previousLedgerHash then ContinuityOutcome.knitPredecessorMismatch
    else ContinuityOutcome.knitPredecessor
  else if h.header.ledgerSeq = lcl.header.ledgerSeq then
    if h.hash ≠ lcl.hash then ContinuityOutcome.knitAtLCLMismatch
    else ContinuityOutcome.knitAtLCL
  else if h.header.ledgerSeq ≠ lcl.header.ledgerSeq + 1 then
    ContinuityOutcome.overshoot
  else if h.header.previousLedgerHash ≠ lcl.hash then
    ContinuityOutcome.chainBreak
  else
    ContinuityOutcome.applyLedger

/-! Concrete fixtures used by witness statements. -/

/-- A deterministic Ledger Application Sink for concrete evaluation: closing
ledger `s` yields an LCL whose header has sequence `s` and whose hash encodes
the sequence and the consensus value. -/
def testCloseLedger (prev : LedgerHeaderHistoryEntry) (s : Nat) (t : TxSetFrame)
    (v : StellarValue) : Except Err LedgerHeaderHistoryEntry :=
  Except.ok
    { hash := 1000 * s + v.txSetHash,
      header :=
        { ledgerSeq := s,
          previousLedgerHash := prev.hash,
          bucketListHash := t.mTransactions.length,
          scpValue := v } }

/-- Concrete environment for witnesses: checkpoint frequency 64, checkpoints
identified by their last contained ledger, a simple content-hash function. -/
def testEnv : Env :=
  { networkID := 1,
    checkpointFrequency := 64,
    checkpointContainingLedger := fun l => (l / 64 + 1) * 64 - 1,
    hashTxSet := fun h txs => 10000 + h + txs.sum,
    closeLedger := testCloseLedger,
    headerFile := fun _ => some [],
    txFile := fun _ => some [] }

/-- Archived transaction record for ledger 100. -/
def rec100 : TransactionHistoryEntry :=
  { ledgerSeq := 100, txSet := { previousLedgerHash := 9, txs := [1, 2] } }

/-- Archived transaction record for ledger 103. -/
def rec103 : TransactionHistoryEntry :=
  { ledgerSeq := 103, txSet := { previousLedgerHash := 11, txs := [3, 4, 5] } }

/-! Helper lemmas about the transaction-set resolver loop. -/

theorem getCurrentTxSetLoop_lt_cons (nid lclHash seq : Nat)
    (entry e : TransactionHistoryEntry) (rest : List TransactionHistoryEntry)
    (h : entry.ledgerSeq < seq) :
    getCurrentTxSetLoop nid lclHash seq entry (e :: rest) =
      getCurrentTxSetLoop nid lclHash seq e rest := by
  rw [getCurrentTxSetLoop]
  simp [h]

theorem getCurrentTxSetLoop_lt_nil (nid lclHash seq : Nat)
    (entry : TransactionHistoryEntry) (h : entry.ledgerSeq < seq) :
    getCurrentTxSetLoop nid lclHash seq entry [] =
      (TxSetFrame.emptyFromHash lclHash, entry, []) := by
  rw [getCurrentTxSetLoop]
  simp [h]

theorem getCurrentTxSetLoop_gt (nid lclHash seq : Nat)
    (entry : TransactionHistoryEntry) (l : List TransactionHistoryEntry)
    (h : entry.ledgerSeq > seq) :
    getCurrentTxSetLoop nid lclHash seq entry l =
      (TxSetFrame.emptyFromHash lclHash, entry, l) := by
  rw [getCurrentTxSetLoop.eq_def]
  have h1 : ¬ entry.ledgerSeq < seq := by omega
  simp [h1, h]

theorem getCurrentTxSetLoop_eq_seq (nid lclHash seq : Nat)
    (entry : TransactionHistoryEntry) (l : List TransactionHistoryEntry)
    (h : entry.ledgerSeq = seq) :
    getCurrentTxSetLoop nid lclHash seq entry l =
      (TxSetFrame.fromXdr nid entry.txSet, entry, l) := by
  rw [getCurrentTxSetLoop.eq_def]
  have h1 : ¬ entry.ledgerSeq < seq := by omega
  have h2 : ¬ entry.ledgerSeq > seq := by omega
  simp [h1, h2]

/-- Every run of the resolver loop either falls out with the empty set
anchored to the LCL hash, or stops on the buffered record matching the
target sequence and returns its transactions. -/
theorem getCurrentTxSetLoop_empty_or_match (nid lclHash seq : Nat) :
    ∀ (l : List TransactionHistoryEntry) (entry : TransactionHistoryEntry),
      (getCurrentTxSetLoop nid lclHash seq entry l).1 =
          TxSetFrame.emptyFromHash lclHash ∨
      ((getCurrentTxSetLoop nid lclHash seq entry l).2.1.ledgerSeq = seq ∧
        (getCurrentTxSetLoop nid lclHash seq entry l).1 =
          TxSetFrame.fromXdr nid (getCurrentTxSetLoop nid lclHash seq entry l).2.1.txSet) := by
  intro l
  induction l with
  | nil =>
    intro entry
    by_cases h1 : entry.ledgerSeq < seq
    · rw [getCurrentTxSetLoop_lt_nil nid lclHash seq entry h1]
      exact Or.inl rfl
    · by_cases h2 : entry.ledgerSeq > seq
      · rw [getCurrentTxSetLoop_gt nid lclHash seq entry [] h2]
        exact Or.inl rfl
      · have h3 : entry.ledgerSeq = seq := by omega
        rw [getCurrentTxSetLoop_eq_seq nid lclHash seq entry [] h3]
        exact Or.inr ⟨h3, rfl⟩
  | cons e rest ih =>
    intro entry
    by_cases h1 : entry.ledgerSeq < seq
    · rw [getCurrentTxSetLoop_lt_cons nid lclHash seq entry e rest h1]
      exact ih e
    · by_cases h2 : entry.ledgerSeq > seq
      · rw [getCurrentTxSetLoop_gt nid lclHash seq entry (e :: rest) h2]
        exact Or.inl rfl
      · have h3 : entry.ledgerSeq = seq := by omega
        rw [getCurrentTxSetLoop_eq_seq nid lclHash seq entry (e :: rest) h3]
        exact Or.inr ⟨h3, rfl⟩

/-- C2: the transaction-set resolver compares the buffered record's sequence
to the target before reading any new record: below the target the buffer is
discarded and the next record read and the comparison repeated (or, at end of
stream, the empty set returned); above the target an empty set is returned
without consuming the buffered record; at the target that record's
transactions are returned, the buffer left holding it so that any later,
larger target discards rather than returns it again.  With archived records
for sequences 100 and 103 only, resolving 101 and 102 each returns an empty
set leaving the record for 103 buffered, and resolving 103 returns exactly
that record's transactions. -/
theorem resolver_compare_before_read (nid lclHash seq : Nat)
    (entry e : TransactionHistoryEntry) (rest l : List TransactionHistoryEntry) :
    (entry.ledgerSeq < seq →
      getCurrentTxSetLoop nid lclHash seq entry (e :: rest) =
        getCurrentTxSetLoop nid lclHash seq e rest) ∧
    (entry.ledgerSeq < seq →
      getCurrentTxSetLoop nid lclHash seq entry [] =
        (TxSetFrame.emptyFromHash lclHash, entry, [])) ∧
    (entry.ledgerSeq > seq →
      getCurrentTxSetLoop nid lclHash seq entry l =
        (TxSetFrame.emptyFromHash lclHash, entry, l)) ∧
    (entry.ledgerSeq = seq →
      getCurrentTxSetLoop nid lclHash seq entry l =
        (TxSetFrame.fromXdr nid entry.txSet, entry, l)) ∧
    (getCurrentTxSetLoop nid lclHash 101 TransactionHistoryEntry.init [rec100, rec103] =
      (TxSetFrame.emptyFromHash lclHash, rec103, [])) ∧
    (getCurrentTxSetLoop nid lclHash 102 rec103 [] =
      (TxSetFrame.emptyFromHash lclHash, rec103, [])) ∧
    (getCurrentTxSetLoop nid lclHash 103 rec103 [] =
      (TxSetFrame.fromXdr nid rec103.txSet, rec103, [])) := by
  refine ⟨fun h => getCurrentTxSetLoop_lt_cons nid lclHash seq entry e rest h,
    fun h => getCurrentTxSetLoop_lt_nil nid lclHash seq entry h,
    fun h => getCurrentTxSetLoop_gt nid lclHash seq entry l h,
    fun h => getCurrentTxSetLoop_eq_seq nid lclHash seq entry l h, ?_, ?_, ?_⟩
  · rw [getCurrentTxSetLoop_lt_cons nid lclHash 101 TransactionHistoryEntry.init rec100 [rec103]
      (by decide)]
    rw [getCurrentTxSetLoop_lt_cons nid lclHash 101 rec100 rec103 [] (by decide)]
    exact getCurrentTxSetLoop_gt nid lclHash 101 rec103 [] (by decide)
  · exact getCurrentTxSetLoop_gt nid lclHash 102 rec103 [] (by decide)
  · exact getCurrentTxSetLoop_eq_seq nid lclHash 103 rec103 [] (by decide)

/-- Witness for C2 at concrete inputs. -/
theorem resolver_compare_before_read_witness :
    TransactionHistoryEntry.init.ledgerSeq < 101 ∧
    getCurrentTxSetLoop 1 7 101 TransactionHistoryEntry.init [rec100] =
      getCurrentTxSetLoop 1 7 101 rec100 [] ∧
    getCurrentTxSetLoop 1 7 101 TransactionHistoryEntry.init [rec100, rec103] =
      (TxSetFrame.emptyFromHash 7, rec103, []) :=
  ⟨by decide,
    (resolver_compare_before_read 1 7 101 TransactionHistoryEntry.init rec100 [] []).1
      (by decide),
    (resolver_compare_before_read 1 7 101 TransactionHistoryEntry.init rec100 [] []).2.2.2.2.1⟩

/-- C6: whenever the resolver returns an empty set — buffered record beyond
the target, or stream exhausted while behind it — the set is the one
constructed from the current LCL's hash (`TxSetFrame(lcl.hash)`); the only
other possible result is the archived record matching the target.  The
content hash of such an empty set is computed by the same
`getContentsHash` function as any other set's, applied to the LCL hash and
no transactions, so it depends only on prior chain state. -/
theorem empty_txset_anchored_to_lcl (env : Env) (st : WorkState) :
    ((getCurrentTxSet env st).1 = TxSetFrame.emptyFromHash st.lcl.hash ∨
      ((getCurrentTxSet env st).2.mTxHistoryEntry.ledgerSeq = st.lcl.header.ledgerSeq + 1 ∧
        (getCurrentTxSet env st).1 =
          TxSetFrame.fromXdr env.networkID (getCurrentTxSet env st).2.mTxHistoryEntry.txSet)) ∧
    (∀ hh : Hash,
      TxSetFrame.getContentsHash env (TxSetFrame.emptyFromHash hh) = env.hashTxSet hh []) ∧
    (∀ t : TxSetFrame,
      TxSetFrame.getContentsHash env t = env.hashTxSet t.mPreviousLedgerHash t.mTransactions) := by
  refine ⟨?_, fun hh => rfl, fun t => rfl⟩
  rcases hmt : st.mTxIn with _ | l
  · by_cases he : st.mTxHistoryEntry.ledgerSeq = st.lcl.header.ledgerSeq + 1
    · exact Or.inr (by simp [getCurrentTxSet, hmt, he])
    · exact Or.inl (by simp [getCurrentTxSet, hmt, he])
  · have h := getCurrentTxSetLoop_empty_or_match env.networkID st.lcl.hash
      (st.lcl.header.ledgerSeq + 1) l st.mTxHistoryEntry
    rcases h with h | ⟨h1, h2⟩
    · exact Or.inl (by simp [getCurrentTxSet, hmt, h])
    · exact Or.inr (by simp [getCurrentTxSet, hmt, h1, h2])

/-- C1: for every header record read and every current LCL header, the
outcome of `applyHistoryOfSingleLedger` is exactly the one the continuity
table assigns, the cases tested in the table's order: too-old skip (no
apply), one-before-LCL knit-up requiring `hash = LCL.previousHash` (fatal on
mismatch, no apply), at-LCL knit-up requiring `hash = LCL.hash` (fatal on
mismatch, no apply), fatal overshoot when the sequence is not `LCL.sequence
+ 1`, fatal chain break when `previousHash ≠ LCL.hash`, and otherwise the
apply path. -/
theorem continuity_classification (env : Env) (st : WorkState)
    (hHeader : LedgerHeaderHistoryEntry) (rest : List LedgerHeaderHistoryEntry)
    (hhdr : st.mHdrIn = some (hHeader :: rest)) :
    applyHistoryOfSingleLedger env st =
      (match specClassify hHeader st.lcl with
       | ContinuityOutcome.skipTooOld => Except.ok (true, stAfterRead st rest)
       | ContinuityOutcome.knitPredecessor => Except.ok (true, stAfterRead st rest)
       | ContinuityOutcome.knitPredecessorMismatch =>
           Except.error
             (Err.runtimeError "replay failed to connect on hash of LCL predecessor",
              stAfterRead st rest)
       | ContinuityOutcome.knitAtLCL => Except.ok (true, stAfterRead st rest)
       | ContinuityOutcome.knitAtLCLMismatch =>
           Except.error (Err.runtimeError "replay at LCL disagreed on hash",
             markFailure (stAfterRead st rest))
       | ContinuityOutcome.overshoot =>
           Except.error (Err.runtimeError "replay overshot current ledger",
             markFailure (stAfterRead st rest))
       | ContinuityOutcome.chainBreak =>
           Except.error (Err.runtimeError "replay at current ledger disagreed on LCL hash",
             markFailure (stAfterRead st rest))
       | ContinuityOutcome.applyLedger => applyValidNext env (stAfterRead st rest) hHeader) := by
  have hl : (stAfterRead st rest).lcl = st.lcl := rfl
  simp only [applyHistoryOfSingleLedger, hhdr, specClassify, hl]
  split_ifs <;> rfl

/-- Concrete LCL header at sequence 10 for witness states. -/
def lcl10 : LedgerHeaderHistoryEntry :=
  { hash := 210,
    header :=
      { ledgerSeq := 10, previousLedgerHash := 209, bucketListHash := 0,
        scpValue := { txSetHash := 0 } } }

/-- Concrete archived header at sequence 5 (older than the LCL). -/
def hdr5 : LedgerHeaderHistoryEntry :=
  { hash := 205,
    header :=
      { ledgerSeq := 5, previousLedgerHash := 204, bucketListHash := 0,
        scpValue := { txSetHash := 0 } } }

/-- Concrete work state: files open, one old header buffered, LCL at 10. -/
def stC1 : WorkState :=
  { mRange := { mFirst := 5, mLast := 20 },
    mLastApplied := lcl10,
    mCurrSeq := 63,
    mFilesOpen := true,
    mHdrIn := some [hdr5],
    mTxIn := some [],
    mTxHistoryEntry := TransactionHistoryEntry.init,
    lcl := lcl10,
    mApplyLedgerSuccess := 0,
    mApplyLedgerFailure := 0,
    closeLedgerCalls := [] }

/-- Witness for C1 at a concrete too-old header. -/
theorem continuity_classification_witness :
    applyHistoryOfSingleLedger testEnv stC1 = Except.ok (true, stAfterRead stC1 []) :=
  (continuity_classification testEnv stC1 hdr5 [] rfl).trans (by rfl)

/-- C3: a header at `LCL.sequence + 1` whose `previousHash` differs from
`LCL.hash` makes the step fail (WORK_FAILURE at the step boundary) with no
`closeLedger` invocation for that ledger, and strictly before any
transaction-set resolution (the resolver buffer and stream are untouched)
and before any `lastApplied` update. -/
theorem chain_break_fails_before_sink (env : Env) (st : WorkState)
    (hHeader : LedgerHeaderHistoryEntry) (rest : List LedgerHeaderHistoryEntry)
    (hopen : st.mFilesOpen = true)
    (hhdr : st.mHdrIn = some (hHeader :: rest))
    (hseq : hHeader.header.ledgerSeq = st.lcl.header.ledgerSeq + 1)
    (hbrk : hHeader.header.previousLedgerHash ≠ st.lcl.hash) :
    onRun env st =
      Except.ok (WorkResult.WORK_FAILURE, markFailure (stAfterRead st rest)) ∧
    (markFailure (stAfterRead st rest)).closeLedgerCalls = st.closeLedgerCalls ∧
    (markFailure (stAfterRead st rest)).mTxHistoryEntry = st.mTxHistoryEntry ∧
    (markFailure (stAfterRead st rest)).mTxIn = st.mTxIn ∧
    (markFailure (stAfterRead st rest)).mLastApplied = st.mLastApplied := by
  have hl : (stAfterRead st rest).lcl = st.lcl := rfl
  have happ : applyHistoryOfSingleLedger env st =
      Except.error (Err.runtimeError "replay at current ledger disagreed on LCL hash",
        markFailure (stAfterRead st rest)) := by
    simp only [applyHistoryOfSingleLedger, hhdr, hl]
    split_ifs <;> first | rfl | omega
  refine ⟨?_, rfl, rfl, rfl, rfl⟩
  simp [onRun, onRunBody, hopen, stepAfterOpen, happ]

/-- Concrete archived header at sequence 11 whose previous-hash disagrees
with the LCL hash 210. -/
def hdr11bad : LedgerHeaderHistoryEntry :=
  { hash := 211,
    header :=
      { ledgerSeq := 11, previousLedgerHash := 999, bucketListHash := 0,
        scpValue := { txSetHash := 0 } } }

/-- Concrete work state holding the chain-breaking header. -/
def stC3 : WorkState := { stC1 with mHdrIn := some [hdr11bad] }

/-- Witness for C3 at a concrete chain break. -/
theorem chain_break_fails_before_sink_witness :
    onRun testEnv stC3 =
      Except.ok (WorkResult.WORK_FAILURE, markFailure (stAfterRead stC3 [])) ∧
    (markFailure (stAfterRead stC3 [])).closeLedgerCalls = stC3.closeLedgerCalls ∧
    (markFailure (stAfterRead stC3 [])).mTxHistoryEntry = stC3.mTxHistoryEntry ∧
    (markFailure (stAfterRead stC3 [])).mTxIn = stC3.mTxIn ∧
    (markFailure (stAfterRead stC3 [])).mLastApplied = stC3.mLastApplied :=
  chain_break_fails_before_sink testEnv stC3 hdr11bad [] rfl rfl (by decide) (by decide)

/-- C7: every chain/logic (`std::runtime_error`) or filesystem error thrown
inside the step body is caught at the step boundary and turned into the
WORK_FAILURE result; an invariant violation is rethrown, and it is the sole
error category that can escape `onRun`. -/
theorem step_boundary_error_policy (env : Env) (st : WorkState) :
    (∀ m st1, onRunBody env st = Except.error (Err.runtimeError m, st1) →
      onRun env st = Except.ok (WorkResult.WORK_FAILURE, st1)) ∧
    (∀ m st1, onRunBody env st = Except.error (Err.fileSystemException m, st1) →
      onRun env st = Except.ok (WorkResult.WORK_FAILURE, st1)) ∧
    (∀ m st1, onRunBody env st = Except.error (Err.invariantDoesNotHold m, st1) →
      onRun env st = Except.error (Err.invariantDoesNotHold m, st1)) ∧
    (∀ e st1, onRun env st = Except.error (e, st1) →
      ∃ m, e = Err.invariantDoesNotHold m) ∧
    (∀ r, onRunBody env st = Except.ok r → onRun env st = Except.ok r) := by
  refine ⟨fun m st1 h => by simp [onRun, h],
    fun m st1 h => by simp [onRun, h],
    fun m st1 h => by simp [onRun, h],
    ?_,
    fun r h => by simp [onRun, h]⟩
  intro e st1 h
  unfold onRun at h
  cases hb : onRunBody env st with
  | ok r => rw [hb] at h; cases h
  | error p =>
    obtain ⟨e2, st2⟩ := p
    cases e2 with
    | invariantDoesNotHold m => rw [hb] at h; cases h; exact ⟨m, rfl⟩
    | fileSystemException m => rw [hb] at h; cases h
    | runtimeError m => rw [hb] at h; cases h

/-- Witness for C7: the concrete chain break of `stC3` is converted to
WORK_FAILURE at the step boundary. -/
theorem step_boundary_error_policy_witness :
    onRun testEnv stC3 =
      Except.ok (WorkResult.WORK_FAILURE, markFailure (stAfterRead stC3 [])) :=
  (step_boundary_error_policy testEnv stC3).1
    "replay at current ledger disagreed on LCL hash"
    (markFailure (stAfterRead stC3 [])) (by rfl)

/-- Opening the input files succeeds exactly on present files, resets the
transaction look-ahead buffer, loads both streams for checkpoint `mCurrSeq`,
and leaves every other member unchanged. -/
theorem openCurrentInputFiles_ok (env : Env) (st st3 : WorkState)
    (h : openCurrentInputFiles env st = Except.ok st3) :
    st3.mTxHistoryEntry = TransactionHistoryEntry.init ∧
    st3.mFilesOpen = true ∧
    st3.mHdrIn = env.headerFile st.mCurrSeq ∧
    st3.mTxIn = env.txFile st.mCurrSeq ∧
    st3.mRange = st.mRange ∧ st3.mLastApplied = st.mLastApplied ∧
    st3.mCurrSeq = st.mCurrSeq ∧ st3.lcl = st.lcl ∧
    st3.mApplyLedgerSuccess = st.mApplyLedgerSuccess ∧
    st3.mApplyLedgerFailure = st.mApplyLedgerFailure ∧
    st3.closeLedgerCalls = st.closeLedgerCalls := by
  unfold openCurrentInputFiles at h
  cases hh : env.headerFile st.mCurrSeq with
  | none => rw [hh] at h; cases h
  | some hdrs =>
    rw [hh] at h
    cases ht : env.txFile st.mCurrSeq with
    | none => simp [ht] at h
    | some txs =>
      simp [ht] at h
      subst h
      simp [hh, ht]

/-- C5: when the header stream of the current checkpoint is exhausted, the
step advances the checkpoint cursor by exactly the checkpoint frequency and
marks the files as needing reopen, without treating this as an error (the
result is RUNNING or SUCCESS); and whenever a subsequent step finds the files
marked closed it reopens them — with a fresh transaction look-ahead buffer —
before any read. -/
theorem checkpoint_rollover (env : Env) (st : WorkState)
    (hopen : st.mFilesOpen = true) (hexh : st.mHdrIn = some []) :
    (∃ r st1, onRun env st = Except.ok (r, st1) ∧
      st1.mCurrSeq = st.mCurrSeq + env.checkpointFrequency ∧
      st1.mFilesOpen = false ∧
      (r = WorkResult.WORK_RUNNING ∨ r = WorkResult.WORK_SUCCESS)) ∧
    (∀ st2 st3, st2.mFilesOpen = false →
      openCurrentInputFiles env st2 = Except.ok st3 →
      st3.mTxHistoryEntry = TransactionHistoryEntry.init ∧
      st3.mFilesOpen = true ∧
      onRunBody env st2 = stepAfterOpen env st3) := by
  constructor
  · have happ : applyHistoryOfSingleLedger env st = Except.ok (false, st) := by
      simp [applyHistoryOfSingleLedger, hexh]
    by_cases hs : st.lcl.header.ledgerSeq = st.mRange.mLast
    · exact ⟨WorkResult.WORK_SUCCESS,
        { st with mCurrSeq := st.mCurrSeq + env.checkpointFrequency, mFilesOpen := false },
        by simp [onRun, onRunBody, hopen, stepAfterOpen, happ, hs], rfl, rfl, Or.inr rfl⟩
    · exact ⟨WorkResult.WORK_RUNNING,
        { st with mCurrSeq := st.mCurrSeq + env.checkpointFrequency, mFilesOpen := false },
        by simp [onRun, onRunBody, hopen, stepAfterOpen, happ, hs], rfl, rfl, Or.inl rfl⟩
  · intro st2 st3 hcl hok
    obtain ⟨h1, h2, _⟩ := openCurrentInputFiles_ok env st2 st3 hok
    exact ⟨h1, h2, by simp [onRunBody, hcl, hok]⟩

/-- Witness for C5: concrete exhausted checkpoint advances the cursor by 64. -/
theorem checkpoint_rollover_witness :
    (∃ r st1, onRun testEnv { stC1 with mHdrIn := some [] } = Except.ok (r, st1) ∧
      st1.mCurrSeq = { stC1 with mHdrIn := some [] }.mCurrSeq + testEnv.checkpointFrequency ∧
      st1.mFilesOpen = false ∧
      (r = WorkResult.WORK_RUNNING ∨ r = WorkResult.WORK_SUCCESS)) ∧
    (∀ st2 st3, st2.mFilesOpen = false →
      openCurrentInputFiles testEnv st2 = Except.ok st3 →
      st3.mTxHistoryEntry = TransactionHistoryEntry.init ∧
      st3.mFilesOpen = true ∧
      onRunBody testEnv st2 = stepAfterOpen testEnv st3) :=
  checkpoint_rollover testEnv { stC1 with mHdrIn := some [] } rfl rfl

/-- C8: reset is idempotent and fully re-initialising — resetting again with
a second range yields exactly the state a single reset with that range would
produce; after a reset, `mLastApplied` is the sink's current LCL header, the
checkpoint cursor is the checkpoint boundary containing the new range's
first sequence, both streams are closed and files marked closed; and the
residual look-ahead buffer cannot affect a subsequent step, because the step
reopens the files (resetting the buffer) before any read. -/
theorem reset_idempotence (env : Env) (r1 r2 : LedgerRange) (s : WorkState) :
    onReset env r2 (onReset env r1 s) = onReset env r2 s ∧
    (onReset env r2 s).mLastApplied = s.lcl ∧
    (onReset env r2 s).mCurrSeq = env.checkpointContainingLedger r2.mFirst ∧
    (onReset env r2 s).mFilesOpen = false ∧
    (onReset env r2 s).mHdrIn = none ∧
    (onReset env r2 s).mTxIn = none ∧
    (∀ x hs ts, env.headerFile (env.checkpointContainingLedger r2.mFirst) = some hs →
      env.txFile (env.checkpointContainingLedger r2.mFirst) = some ts →
      onRun env (onReset env r2 { s with mTxHistoryEntry := x }) =
        onRun env (onReset env r2 s)) := by
  refine ⟨rfl, rfl, rfl, rfl, rfl, rfl, ?_⟩
  intro x hs ts h1 h2
  cases s
  simp [onReset, onRun, onRunBody, openCurrentInputFiles, h1, h2]

/-- Second concrete range for the reset witness. -/
def rangeB : LedgerRange := { mFirst := 70, mLast := 140 }

/-- Witness for C8: the residual buffered record `rec100` left from an
earlier range cannot change the outcome of the step after a reset. -/
theorem reset_idempotence_witness :
    onReset testEnv rangeB (onReset testEnv { mFirst := 5, mLast := 20 } stC1) =
      onReset testEnv rangeB stC1 ∧
    onRun testEnv (onReset testEnv rangeB { stC1 with mTxHistoryEntry := rec100 }) =
      onRun testEnv (onReset testEnv rangeB stC1) :=
  ⟨(reset_idempotence testEnv { mFirst := 5, mLast := 20 } rangeB stC1).1,
    (reset_idempotence testEnv { mFirst := 5, mLast := 20 } rangeB stC1).2.2.2.2.2.2
      rec100 [] [] rfl rfl⟩

/-- Resolving a transaction set touches only the look-ahead buffer and the
transaction stream. -/
theorem getCurrentTxSet_preserves (env : Env) (st : WorkState) :
    (getCurrentTxSet env st).2.mRange = st.mRange ∧
    (getCurrentTxSet env st).2.mLastApplied = st.mLastApplied ∧
    (getCurrentTxSet env st).2.mCurrSeq = st.mCurrSeq ∧
    (getCurrentTxSet env st).2.mFilesOpen = st.mFilesOpen ∧
    (getCurrentTxSet env st).2.mHdrIn = st.mHdrIn ∧
    (getCurrentTxSet env st).2.lcl = st.lcl ∧
    (getCurrentTxSet env st).2.mApplyLedgerSuccess = st.mApplyLedgerSuccess ∧
    (getCurrentTxSet env st).2.mApplyLedgerFailure = st.mApplyLedgerFailure ∧
    (getCurrentTxSet env st).2.closeLedgerCalls = st.closeLedgerCalls := by
  rcases h : st.mTxIn with _ | l
  · simp only [getCurrentTxSet, h]
    split_ifs <;> simp
  · simp [getCurrentTxSet, h]

/-- A non-throwing `applyHistoryOfSingleLedger` leaves the range, checkpoint
cursor and file flag unchanged, and either leaves the sink LCL and
`mLastApplied` unchanged, or records a successful sink transition whose
resulting LCL sequence is the sequence passed to `closeLedger` and equals
the sequence of the new `mLastApplied` header. -/
theorem apply_ok_fields (env : Env) (st : WorkState) (b : Bool) (st1 : WorkState)
    (h : applyHistoryOfSingleLedger env st = Except.ok (b, st1)) :
    st1.mRange = st.mRange ∧ st1.mCurrSeq = st.mCurrSeq ∧ st1.mFilesOpen = st.mFilesOpen ∧
    ((st1.lcl = st.lcl ∧ st1.mLastApplied = st.mLastApplied) ∨
      (∃ prev sq t v, env.closeLedger prev sq t v = Except.ok st1.lcl ∧
        st1.mLastApplied.header.ledgerSeq = sq)) := by
  cases hm : st.mHdrIn with
  | none =>
    simp only [applyHistoryOfSingleLedger, hm, Except.ok.injEq, Prod.mk.injEq] at h
    obtain ⟨-, h2⟩ := h
    subst h2
    exact ⟨rfl, rfl, rfl, Or.inl ⟨rfl, rfl⟩⟩
  | some lst =>
    cases lst with
    | nil =>
      simp only [applyHistoryOfSingleLedger, hm, Except.ok.injEq, Prod.mk.injEq] at h
      obtain ⟨-, h2⟩ := h
      subst h2
      exact ⟨rfl, rfl, rfl, Or.inl ⟨rfl, rfl⟩⟩
    | cons hd rest =>
      have hpres := getCurrentTxSet_preserves env (stAfterRead st rest)
      simp only [applyHistoryOfSingleLedger, hm] at h
      split_ifs at h <;>
        first
        | exact Except.noConfusion h
        | (simp only [Except.ok.injEq, Prod.mk.injEq] at h
           obtain ⟨-, h2⟩ := h
           subst h2
           exact ⟨rfl, rfl, rfl, Or.inl ⟨rfl, rfl⟩⟩)
        | skip
      simp only [applyValidNext] at h
      split_ifs at h with d1 <;>
        first
        | exact Except.noConfusion h
        | skip
      split at h <;>
        first
        | exact Except.noConfusion h
        | skip
      rename_i newLcl hc
      split_ifs at h with d2 <;>
        first
        | exact Except.noConfusion h
        | skip
      simp only [Except.ok.injEq, Prod.mk.injEq] at h
      obtain ⟨-, h2⟩ := h
      subst h2
      refine ⟨hpres.1, hpres.2.2.1, hpres.2.2.2.1, Or.inr ?_⟩
      exact ⟨(getCurrentTxSet env (stAfterRead st rest)).2.lcl, hd.header.ledgerSeq,
        (getCurrentTxSet env (stAfterRead st rest)).1, hd.header.scpValue, hc, rfl⟩

/-- A non-throwing `stepAfterOpen` never yields WORK_FAILURE, yields
WORK_SUCCESS exactly when the resulting sink LCL sequence equals
`mRange.mLast`, and its resulting state comes from a non-throwing
`applyHistoryOfSingleLedger` with range, LCL and `mLastApplied` passed
through. -/
theorem stepAfterOpen_ok (env : Env) (st : WorkState) (r : WorkResult) (st1 : WorkState)
    (h : stepAfterOpen env st = Except.ok (r, st1)) :
    (r = WorkResult.WORK_SUCCESS ↔ st1.lcl.header.ledgerSeq = st1.mRange.mLast) ∧
    r ≠ WorkResult.WORK_FAILURE ∧
    (∃ b st2, applyHistoryOfSingleLedger env st = Except.ok (b, st2) ∧
      st1.lcl = st2.lcl ∧ st1.mLastApplied = st2.mLastApplied ∧ st1.mRange = st2.mRange) := by
  unfold stepAfterOpen at h
  cases ha : applyHistoryOfSingleLedger env st with
  | error e => rw [ha] at h; exact Except.noConfusion h
  | ok p =>
    obtain ⟨b, st2⟩ := p
    rw [ha] at h
    simp only [] at h
    cases b with
    | true =>
      split_ifs at h <;>
        (simp only [Except.ok.injEq, Prod.mk.injEq] at h
         obtain ⟨hr, hst⟩ := h
         subst hst
         subst hr
         exact ⟨by simp_all, by simp, true, st2, rfl, rfl, rfl, rfl⟩)
    | false =>
      split_ifs at h <;>
        (simp only [Except.ok.injEq, Prod.mk.injEq] at h
         obtain ⟨hr, hst⟩ := h
         subst hst
         subst hr
         exact ⟨by simp_all, by simp, false, st2, rfl, rfl, rfl, rfl⟩)

/-- Core of the step postcondition: from a state whose `mLastApplied`
sequence agrees with the sink LCL sequence, a non-throwing `stepAfterOpen`
returns SUCCESS exactly when the resulting LCL sequence is the range's last,
never FAILURE, and preserves the agreement (given the sink contract that
`closeLedger` returns a header at the requested sequence). -/
theorem stepAfterOpen_postcondition (env : Env) (st0 : WorkState) (r : WorkResult)
    (st1 : WorkState)
    (hsink : ∀ prev sq t v out, env.closeLedger prev sq t v = Except.ok out →
      out.header.ledgerSeq = sq)
    (hinv : st0.mLastApplied.header.ledgerSeq = st0.lcl.header.ledgerSeq)
    (hstep : stepAfterOpen env st0 = Except.ok (r, st1)) :
    (r = WorkResult.WORK_SUCCESS ↔ st1.lcl.header.ledgerSeq = st0.mRange.mLast) ∧
    st1.mLastApplied.header.ledgerSeq = st1.lcl.header.ledgerSeq ∧
    r ≠ WorkResult.WORK_FAILURE := by
  obtain ⟨hiff, hnf, b, st2, happ, e1, e2, e3⟩ := stepAfterOpen_ok env st0 r st1 hstep
  obtain ⟨f1, f2, f3, hdisj⟩ := apply_ok_fields env st0 b st2 happ
  have hrange : st1.mRange = st0.mRange := e3.trans f1
  have hinv1 : st1.mLastApplied.header.ledgerSeq = st1.lcl.header.ledgerSeq := by
    rcases hdisj with ⟨g1, g2⟩ | ⟨prev, sq, t, v, hcl, hseq⟩
    · rw [e2, g2, hinv, ← g1, ← e1]
    · rw [e2, hseq, e1, ← hsink prev sq t v st2.lcl hcl]
  exact ⟨by rw [← hrange]; exact hiff, hinv1, hnf⟩

/-- C4: every non-throwing step returns SUCCESS exactly when the sink's
current LCL sequence equals `range.last` and RUNNING otherwise (never
FAILURE without a throw), and on SUCCESS the caller-visible `mLastApplied`
header has sequence `range.last`; the sink contract assumed is that
`closeLedger` reports the header of the sequence it was asked to close, and
the state is assumed to satisfy the reset-established agreement between
`mLastApplied` and the sink LCL. -/
theorem onrun_success_iff (env : Env) (st : WorkState) (r : WorkResult) (st1 : WorkState)
    (hsink : ∀ prev sq t v out, env.closeLedger prev sq t v = Except.ok out →
      out.header.ledgerSeq = sq)
    (hinv : st.mLastApplied.header.ledgerSeq = st.lcl.header.ledgerSeq)
    (hrun : onRunBody env st = Except.ok (r, st1)) :
    (r = WorkResult.WORK_SUCCESS ↔ st1.lcl.header.ledgerSeq = st.mRange.mLast) ∧
    (r = WorkResult.WORK_SUCCESS → st1.mLastApplied.header.ledgerSeq = st.mRange.mLast) ∧
    r ≠ WorkResult.WORK_FAILURE ∧
    onRun env st = Except.ok (r, st1) := by
  have hbody := hrun
  unfold onRunBody at hrun
  by_cases hf : st.mFilesOpen
  · rw [if_pos hf] at hrun
    obtain ⟨hiff, hinv1, hnf⟩ :=
      stepAfterOpen_postcondition env st r st1 hsink hinv hrun
    exact ⟨hiff, fun hs => hinv1.trans (hiff.mp hs), hnf, by simp [onRun, hbody]⟩
  · rw [if_neg hf] at hrun
    cases ho : openCurrentInputFiles env st with
    | error e => rw [ho] at hrun; exact Except.noConfusion hrun
    | ok st0 =>
      rw [ho] at hrun
      obtain ⟨-, -, -, -, o5, o6, -, o8, -⟩ := openCurrentInputFiles_ok env st st0 ho
      obtain ⟨hiff, hinv1, hnf⟩ := stepAfterOpen_postcondition env st0 r st1 hsink
        (by rw [o6, o8]; exact hinv) hrun
      rw [o5] at hiff
      exact ⟨hiff, fun hs => hinv1.trans (hiff.mp hs), hnf, by simp [onRun, hbody]⟩

/-- The concrete sink satisfies the contract: closing ledger `sq` reports a
header at sequence `sq`. -/
theorem testEnv_sink_contract :
    ∀ prev sq t v out, testEnv.closeLedger prev sq t v = Except.ok out →
      out.header.ledgerSeq = sq := by
  intro prev sq t v out h
  simp only [testEnv, testCloseLedger, Except.ok.injEq] at h
  subst h
  rfl

/-- Concrete work state with an exhausted header stream. -/
def stC4 : WorkState := { stC1 with mHdrIn := some [] }

/-- State after the rollover step from `stC4`. -/
def stC4roll : WorkState := { stC4 with mCurrSeq := 127, mFilesOpen := false }

/-- Witness for C4 at a concrete non-throwing RUNNING step. -/
theorem onrun_success_iff_witness :
    (WorkResult.WORK_RUNNING = WorkResult.WORK_SUCCESS ↔
      stC4roll.lcl.header.ledgerSeq = stC4.mRange.mLast) ∧
    (WorkResult.WORK_RUNNING = WorkResult.WORK_SUCCESS →
      stC4roll.mLastApplied.header.ledgerSeq = stC4.mRange.mLast) ∧
    WorkResult.WORK_RUNNING ≠ WorkResult.WORK_FAILURE ∧
    onRun testEnv stC4 = Except.ok (WorkResult.WORK_RUNNING, stC4roll) :=
  onrun_success_iff testEnv stC4 WorkResult.WORK_RUNNING stC4roll
    testEnv_sink_contract rfl rfl

/-- Concrete archived header at sequence 9 (one before the LCL at 10) whose
hash disagrees with the LCL's previous-ledger hash 209. -/
def hdr9bad : LedgerHeaderHistoryEntry :=
  { hash := 999,
    header :=
      { ledgerSeq := 9, previousLedgerHash := 208, bucketListHash := 0,
        scpValue := { txSetHash := 0 } } }

/-- Concrete work state holding the mismatching one-before-LCL header. -/
def stC9 : WorkState := { stC1 with mHdrIn := some [hdr9bad] }

/-- Counterexample to C9 as stated: the one-before-LCL predecessor-hash
mismatch is a chain/logic failure (it throws), yet the
failed-ledger-applications counter is not incremented (lines 144-159 throw
without `mApplyLedgerFailure.Mark()`). -/
theorem predecessor_mismatch_no_failure_mark :
    applyHistoryOfSingleLedger testEnv stC9 =
      Except.error (Err.runtimeError "replay failed to connect on hash of LCL predecessor",
        stAfterRead stC9 []) ∧
    (stAfterRead stC9 []).mApplyLedgerFailure = stC9.mApplyLedgerFailure ∧
    stC9.mApplyLedgerFailure = 0 :=
  ⟨rfl, rfl, rfl⟩

/-- C9 (amended): each counter is incremented exactly once per relevant
event — the success counter on a completed application with matching
post-apply hash, the failure counter on the at-LCL hash mismatch, the
overshoot, the LCL-hash disagreement, the txset hash mismatch and the
post-apply hash mismatch — while the one-before-LCL predecessor-hash
mismatch throws without incrementing either counter, and the knit-up,
too-old-skip and sink-thrown cases leave both counters unchanged. -/
theorem counters_marked_once_per_event (env : Env) (st : WorkState)
    (hd : LedgerHeaderHistoryEntry) (rest : List LedgerHeaderHistoryEntry)
    (hhdr : st.mHdrIn = some (hd :: rest)) :
    (hd.header.ledgerSeq + 1 < st.lcl.header.ledgerSeq →
      (resultState (applyHistoryOfSingleLedger env st)).mApplyLedgerFailure =
        st.mApplyLedgerFailure ∧
      (resultState (applyHistoryOfSingleLedger env st)).mApplyLedgerSuccess =
        st.mApplyLedgerSuccess) ∧
    (hd.header.ledgerSeq + 1 = st.lcl.header.ledgerSeq →
      (resultState (applyHistoryOfSingleLedger env st)).mApplyLedgerFailure =
        st.mApplyLedgerFailure ∧
      (resultState (applyHistoryOfSingleLedger env st)).mApplyLedgerSuccess =
        st.mApplyLedgerSuccess) ∧
    (hd.header.ledgerSeq = st.lcl.header.ledgerSeq → hd.hash ≠ st.lcl.hash →
      (resultState (applyHistoryOfSingleLedger env st)).mApplyLedgerFailure =
        st.mApplyLedgerFailure + 1 ∧
      (resultState (applyHistoryOfSingleLedger env st)).mApplyLedgerSuccess =
        st.mApplyLedgerSuccess) ∧
    (hd.header.ledgerSeq = st.lcl.header.ledgerSeq → hd.hash = st.lcl.hash →
      (resultState (applyHistoryOfSingleLedger env st)).mApplyLedgerFailure =
        st.mApplyLedgerFailure ∧
      (resultState (applyHistoryOfSingleLedger env st)).mApplyLedgerSuccess =
        st.mApplyLedgerSuccess) ∧
    (st.lcl.header.ledgerSeq + 1 < hd.header.ledgerSeq →
      (resultState (applyHistoryOfSingleLedger env st)).mApplyLedgerFailure =
        st.mApplyLedgerFailure + 1 ∧
      (resultState (applyHistoryOfSingleLedger env st)).mApplyLedgerSuccess =
        st.mApplyLedgerSuccess) ∧
    (hd.header.ledgerSeq = st.lcl.header.ledgerSeq + 1 →
      hd.header.previousLedgerHash ≠ st.lcl.hash →
      (resultState (applyHistoryOfSingleLedger env st)).mApplyLedgerFailure =
        st.mApplyLedgerFailure + 1 ∧
      (resultState (applyHistoryOfSingleLedger env st)).mApplyLedgerSuccess =
        st.mApplyLedgerSuccess) ∧
    (hd.header.ledgerSeq = st.lcl.header.ledgerSeq + 1 →
      hd.header.previousLedgerHash = st.lcl.hash →
      hd.header.scpValue.txSetHash ≠
        TxSetFrame.getContentsHash env (getCurrentTxSet env (stAfterRead st rest)).1 →
      (resultState (applyHistoryOfSingleLedger env st)).mApplyLedgerFailure =
        st.mApplyLedgerFailure + 1 ∧
      (resultState (applyHistoryOfSingleLedger env st)).mApplyLedgerSuccess =
        st.mApplyLedgerSuccess) ∧
    (∀ e, hd.header.ledgerSeq = st.lcl.header.ledgerSeq + 1 →
      hd.header.previousLedgerHash = st.lcl.hash →
      hd.header.scpValue.txSetHash =
        TxSetFrame.getContentsHash env (getCurrentTxSet env (stAfterRead st rest)).1 →
      env.closeLedger (getCurrentTxSet env (stAfterRead st rest)).2.lcl hd.header.ledgerSeq
          (getCurrentTxSet env (stAfterRead st rest)).1 hd.header.scpValue =
        Except.error e →
      (resultState (applyHistoryOfSingleLedger env st)).mApplyLedgerFailure =
        st.mApplyLedgerFailure ∧
      (resultState (applyHistoryOfSingleLedger env st)).mApplyLedgerSuccess =
        st.mApplyLedgerSuccess) ∧
    (∀ newLcl, hd.header.ledgerSeq = st.lcl.header.ledgerSeq + 1 →
      hd.header.previousLedgerHash = st.lcl.hash →
      hd.header.scpValue.txSetHash =
        TxSetFrame.getContentsHash env (getCurrentTxSet env (stAfterRead st rest)).1 →
      env.closeLedger (getCurrentTxSet env (stAfterRead st rest)).2.lcl hd.header.ledgerSeq
          (getCurrentTxSet env (stAfterRead st rest)).1 hd.header.scpValue =
        Except.ok newLcl →
      (newLcl.hash ≠ hd.hash →
        (resultState (applyHistoryOfSingleLedger env st)).mApplyLedgerFailure =
          st.mApplyLedgerFailure + 1 ∧
        (resultState (applyHistoryOfSingleLedger env st)).mApplyLedgerSuccess =
          st.mApplyLedgerSuccess) ∧
      (newLcl.hash = hd.hash →
        (resultState (applyHistoryOfSingleLedger env st)).mApplyLedgerSuccess =
          st.mApplyLedgerSuccess + 1 ∧
        (resultState (applyHistoryOfSingleLedger env st)).mApplyLedgerFailure =
          st.mApplyLedgerFailure)) := by
  have hl : (stAfterRead st rest).lcl = st.lcl := rfl
  obtain ⟨-, -, -, -, -, -, hps, hpf, -⟩ := getCurrentTxSet_preserves env (stAfterRead st rest)
  refine ⟨?_, ?_, ?_, ?_, ?_, ?_, ?_, ?_, ?_⟩
  · intro h1
    simp only [applyHistoryOfSingleLedger, hhdr, hl]
    split_ifs <;>
      first
      | (exfalso; omega)
      | (exfalso; simp_all; done)
      | simp [resultState, markFailure, stAfterRead]
  · intro h1
    simp only [applyHistoryOfSingleLedger, hhdr, hl]
    split_ifs <;>
      first
      | (exfalso; omega)
      | (exfalso; simp_all; done)
      | simp [resultState, markFailure, stAfterRead]
  · intro h1 h2
    simp only [applyHistoryOfSingleLedger, hhdr, hl]
    split_ifs <;>
      first
      | (exfalso; omega)
      | (exfalso; simp_all; done)
      | simp [resultState, markFailure, stAfterRead]
  · intro h1 h2
    simp only [applyHistoryOfSingleLedger, hhdr, hl]
    split_ifs <;>
      first
      | (exfalso; omega)
      | (exfalso; simp_all; done)
      | simp [resultState, markFailure, stAfterRead]
  · intro h1
    simp only [applyHistoryOfSingleLedger, hhdr, hl]
    split_ifs <;>
      first
      | (exfalso; omega)
      | (exfalso; simp_all; done)
      | simp [resultState, markFailure, stAfterRead]
  · intro h1 h2
    simp only [applyHistoryOfSingleLedger, hhdr, hl]
    split_ifs <;>
      first
      | (exfalso; omega)
      | (exfalso; simp_all; done)
      | simp [resultState, markFailure, stAfterRead]
  · intro h1 h2 h3
    simp only [applyHistoryOfSingleLedger, hhdr, hl]
    split_ifs <;>
      first
      | (exfalso; omega)
      | (exfalso; simp_all; done)
      | skip
    simp only [applyValidNext, if_pos h3]
    simp [resultState, markFailure, hpf, hps]
    exact ⟨rfl, rfl⟩
  · intro e h1 h2 h3 hc
    simp only [applyHistoryOfSingleLedger, hhdr, hl]
    split_ifs <;>
      first
      | (exfalso; omega)
      | (exfalso; simp_all; done)
      | skip
    simp only [applyValidNext, if_neg (not_not_intro h3), hc]
    simp [resultState, hpf, hps]
    exact ⟨rfl, rfl⟩
  · intro newLcl h1 h2 h3 hc
    constructor
    · intro h4
      simp only [applyHistoryOfSingleLedger, hhdr, hl]
      split_ifs <;>
        first
        | (exfalso; omega)
        | (exfalso; simp_all; done)
        | skip
      simp only [applyValidNext, if_neg (not_not_intro h3), hc, if_pos h4]
      simp [resultState, markFailure, hpf, hps]
      exact ⟨rfl, rfl⟩
    · intro h4
      simp only [applyHistoryOfSingleLedger, hhdr, hl]
      split_ifs <;>
        first
        | (exfalso; omega)
        | (exfalso; simp_all; done)
        | skip
      simp only [applyValidNext, if_neg (not_not_intro h3), hc, if_neg (not_not_intro h4)]
      simp [resultState, hpf, hps]
      exact ⟨rfl, rfl⟩

/-- Witness for C9 (amended) at a concrete too-old header: neither counter
moves. -/
theorem counters_marked_once_per_event_witness :
    hdr5.header.ledgerSeq + 1 < stC1.lcl.header.ledgerSeq ∧
    ((resultState (applyHistoryOfSingleLedger testEnv stC1)).mApplyLedgerFailure =
      stC1.mApplyLedgerFailure ∧
    (resultState (applyHistoryOfSingleLedger testEnv stC1)).mApplyLedgerSuccess =
      stC1.mApplyLedgerSuccess) :=
  ⟨by decide, (counters_marked_once_per_event testEnv stC1 hdr5 [] rfl).1 (by decide)⟩

/-- C10: `mLastApplied` is updated only by a fully verified application —
end-of-stream returns without touching state, every thrown error leaves
`mLastApplied` unchanged from before the invocation, and a returning
invocation either leaves it unchanged (skip and knit-up cases) or assigns it
the newly read header, which happens exactly in the branch where the sink
was invoked for that header's sequence and the sink's resulting hash equals
the header's hash. -/
theorem last_applied_updated_only_on_verified_apply (env : Env) (st : WorkState) :
    (∀ h : st.mHdrIn = none ∨ st.mHdrIn = some [],
      applyHistoryOfSingleLedger env st = Except.ok (false, st)) ∧
    (∀ e st1, applyHistoryOfSingleLedger env st = Except.error (e, st1) →
      st1.mLastApplied = st.mLastApplied) ∧
    (∀ b st1, applyHistoryOfSingleLedger env st = Except.ok (b, st1) →
      st1.mLastApplied = st.mLastApplied ∨
      ∃ hd rest, st.mHdrIn = some (hd :: rest) ∧ st1.mLastApplied = hd ∧
        st1.lcl.hash = hd.hash ∧
        st1.closeLedgerCalls = st.closeLedgerCalls ++ [hd.header.ledgerSeq] ∧
        st1.mApplyLedgerSuccess = st.mApplyLedgerSuccess + 1) := by
  refine ⟨?_, ?_, ?_⟩
  · rintro (h | h) <;> simp [applyHistoryOfSingleLedger, h]
  · intro e st1 h
    cases hm : st.mHdrIn with
    | none => simp [applyHistoryOfSingleLedger, hm] at h
    | some lst =>
      cases lst with
      | nil => simp [applyHistoryOfSingleLedger, hm] at h
      | cons hd rest =>
        obtain ⟨-, hLA, -, -, -, -, -, -, -⟩ :=
          getCurrentTxSet_preserves env (stAfterRead st rest)
        simp only [applyHistoryOfSingleLedger, hm] at h
        split_ifs at h <;>
          first
          | exact Except.noConfusion h
          | (simp only [Except.error.injEq, Prod.mk.injEq] at h
             obtain ⟨-, h2⟩ := h
             subst h2
             first
             | rfl
             | exact hLA)
          | skip
        simp only [applyValidNext] at h
        split_ifs at h with d1 <;>
          first
          | (simp only [Except.error.injEq, Prod.mk.injEq] at h
             obtain ⟨-, h2⟩ := h
             subst h2
             exact hLA)
          | skip
        split at h <;>
          first
          | (simp only [Except.error.injEq, Prod.mk.injEq] at h
             obtain ⟨-, h2⟩ := h
             subst h2
             exact hLA)
          | skip
        split_ifs at h with d2 <;>
          first
          | exact Except.noConfusion h
          | (simp only [Except.error.injEq, Prod.mk.injEq] at h
             obtain ⟨-, h2⟩ := h
             subst h2
             exact hLA)
  · intro b st1 h
    cases hm : st.mHdrIn with
    | none =>
      simp only [applyHistoryOfSingleLedger, hm, Except.ok.injEq, Prod.mk.injEq] at h
      obtain ⟨-, h2⟩ := h
      subst h2
      exact Or.inl rfl
    | some lst =>
      cases lst with
      | nil =>
        simp only [applyHistoryOfSingleLedger, hm, Except.ok.injEq, Prod.mk.injEq] at h
        obtain ⟨-, h2⟩ := h
        subst h2
        exact Or.inl rfl
      | cons hd rest =>
        obtain ⟨-, hLA, -, -, -, -, hSU, -, hCC⟩ :=
          getCurrentTxSet_preserves env (stAfterRead st rest)
        simp only [applyHistoryOfSingleLedger, hm] at h
        split_ifs at h <;>
          first
          | exact Except.noConfusion h
          | (simp only [Except.ok.injEq, Prod.mk.injEq] at h
             obtain ⟨-, h2⟩ := h
             subst h2
             exact Or.inl rfl)
          | skip
        simp only [applyValidNext] at h
        split_ifs at h with d1 <;>
          first
          | exact Except.noConfusion h
          | skip
        split at h <;>
          first
          | exact Except.noConfusion h
          | skip
        rename_i newLcl hc
        split_ifs at h with d2 <;>
          first
          | exact Except.noConfusion h
          | skip
        simp only [Except.ok.injEq, Prod.mk.injEq] at h
        obtain ⟨-, h2⟩ := h
        subst h2
        refine Or.inr ⟨hd, rest, rfl, rfl, ?_, ?_, ?_⟩
        · tauto
        · simp only [hCC]
          rfl
        · simp only [hSU]
          rfl

/-- Witness for C10 at the concrete one-before-LCL mismatch: the throw
leaves `mLastApplied` unchanged. -/
theorem last_applied_updated_only_on_verified_apply_witness :
    (stAfterRead stC9 []).mLastApplied = stC9.mLastApplied :=
  (last_applied_updated_only_on_verified_apply testEnv stC9).2.1
    (Err.runtimeError "replay failed to connect on hash of LCL predecessor")
    (stAfterRead stC9 []) (by rfl)
